import Mathlib

/-!
Shallow embedding of the zenlixem resource-holder correlation core
(crates `fsmeta` and `procscan`, tools `whoholds` and `whyopen`),
together with theorems settling the specification claims.

Strings read from the process-information pseudo-filesystem are modelled
as `List Char`; every filesystem read is modelled by an explicit
environment value so that the pure correlation logic can be stated and
executed as Lean functions.
-/

namespace Zenlixem

/-! ### Character / numeral parsing primitives (model of Rust `str::parse`
and `from_str_radix`; inputs here are ASCII, so Rust's Unicode whitespace
test coincides with the ASCII one used below). -/

def digitVal (c : Char) : Option Nat :=
  if '0' ≤ c ∧ c ≤ '9' then some (c.toNat - '0'.toNat) else none

def hexDigitVal (c : Char) : Option Nat :=
  if '0' ≤ c ∧ c ≤ '9' then some (c.toNat - '0'.toNat)
  else if 'a' ≤ c ∧ c ≤ 'f' then some (c.toNat - 'a'.toNat + 10)
  else if 'A' ≤ c ∧ c ≤ 'F' then some (c.toNat - 'A'.toNat + 10)
  else none

def parseDigitsAux (dval : Char → Option Nat) (radix bound : Nat) :
    List Char → Nat → Option Nat
  | [], acc => some acc
  | c :: cs, acc =>
    match dval c with
    | none => none
    | some d =>
      let acc2 := acc * radix + d
      if acc2 < bound then parseDigitsAux dval radix bound cs acc2 else none

def parseUnsigned (dval : Char → Option Nat) (radix bound : Nat) :
    List Char → Option Nat
  | [] => none
  | c :: rest =>
    if c = '+' then
      if rest = [] then none else parseDigitsAux dval radix bound rest 0
    else parseDigitsAux dval radix bound (c :: rest) 0

def parse_hex_u32 (s : List Char) : Option Nat :=
  parseUnsigned hexDigitVal 16 4294967296 s

def parse_hex_u16 (s : List Char) : Option Nat :=
  parseUnsigned hexDigitVal 16 65536 s

def parse_hex_u8 (s : List Char) : Option Nat :=
  parseUnsigned hexDigitVal 16 256 s

def parse_u64_dec (s : List Char) : Option Nat :=
  parseUnsigned digitVal 10 18446744073709551616 s

def parse_u16_dec (s : List Char) : Option Nat :=
  parseUnsigned digitVal 10 65536 s

def parse_i32 : List Char → Option Int
  | [] => none
  | c :: rest =>
    if c = '+' then
      if rest = [] then none
      else (parseDigitsAux digitVal 10 2147483648 rest 0).map Int.ofNat
    else if c = '-' then
      if rest = [] then none
      else (parseDigitsAux digitVal 10 2147483649 rest 0).map (fun n => -(n : Int))
    else (parseDigitsAux digitVal 10 2147483648 (c :: rest) 0).map Int.ofNat

def isWsChar (c : Char) : Bool :=
  c == ' ' || c == '\t' || c == '\n' || c == '\r'

def splitWsAux : List Char → List Char → List (List Char)
  | [], [] => []
  | [], acc => [acc.reverse]
  | c :: cs, acc =>
    if isWsChar c then
      match acc with
      | [] => splitWsAux cs []
      | _ => acc.reverse :: splitWsAux cs []
    else splitWsAux cs (c :: acc)

def split_whitespace (s : List Char) : List (List Char) :=
  splitWsAux s []

def splitOnceColon : List Char → Option (List Char × List Char)
  | [] => none
  | c :: cs =>
    if c = ':' then some ([], cs)
    else (splitOnceColon cs).map (fun p => (c :: p.1, p.2))

/-! ### `fsmeta` crate -/

structure FileId where
  dev : Nat
  inode : Nat
deriving DecidableEq

def dev_major_minor (dev : Nat) : Nat × Nat :=
  let major :=
    (((dev &&& 0xfff00) >>> 8) ||| ((dev &&& 0xfffff00000000000) >>> 32)) % 4294967296
  let minor :=
    ((dev &&& 0xff) ||| ((dev &&& 0xfff00000) >>> 12)) % 4294967296
  (major, minor)

/-- The device decomposition exactly as the claim words it: major taken
from bits 8-11 (mask `0xf00`) combined with bits 44-63 shifted, minor from
bits 0-7 combined with bits 20-31 shifted.  Stated from the claim's words,
for comparison against `dev_major_minor` taken from the source. -/
def devMajorMinorClaimed (dev : Nat) : Nat × Nat :=
  let major :=
    (((dev &&& 0xf00) >>> 8) ||| ((dev &&& 0xfffff00000000000) >>> 32)) % 4294967296
  let minor :=
    ((dev &&& 0xff) ||| ((dev &&& 0xfff00000) >>> 12)) % 4294967296
  (major, minor)

def format_duration_ago (secs : Nat) : String :=
  if secs < 60 then toString secs ++ "s ago"
  else if secs < 60 * 60 then toString (secs / 60) ++ "m ago"
  else if secs < 60 * 60 * 24 then toString (secs / (60 * 60)) ++ "h ago"
  else toString (secs / (60 * 60 * 24)) ++ "d ago"

/-! ### `procscan` crate: pid enumeration -/

/-- `list_pids`, as a function of the entry names of the process-information
root directory. -/
def list_pids (entries : List String) : List Int :=
  List.insertionSort (· ≤ ·) (entries.filterMap (fun s => parse_i32 s.toList))

/-- `list_pids` exactly as the claim words it: keep the entry names that
parse as positive integers.  Stated from the claim's words, for comparison
against `list_pids` taken from the source. -/
def listPidsClaimed (entries : List String) : List Int :=
  List.insertionSort (· ≤ ·)
    (entries.filterMap (fun s =>
      match parseDigitsAux digitVal 10 2147483648 s.toList 0 with
      | some n => if s.toList ≠ [] ∧ 0 < n then some (Int.ofNat n) else none
      | none => none))

/-! ### `procscan` crate: per-process memory-map parsing -/

structure ProcMapEntry where
  dev_major : Nat
  dev_minor : Nat
  inode : Nat
  pathname : Option (List Char)
deriving DecidableEq

def parse_dev_hex (s : List Char) : Option (Nat × Nat) :=
  match splitOnceColon s with
  | none => none
  | some (majs, rest) => do
    let major ← parse_hex_u32 majs
    let minors := match splitOnceColon rest with
      | none => rest
      | some p => p.1
    let minor ← parse_hex_u32 minors
    some (major, minor)

def parseMapLine (line : List Char) : Option ProcMapEntry :=
  match split_whitespace line with
  | _addr :: _perms :: _offset :: dev :: inode :: rest => do
    let dm ← parse_dev_hex dev
    let inodeN ← parse_u64_dec inode
    some ⟨dm.1, dm.2, inodeN, rest.head?⟩
  | _ => none

/-- `read_proc_maps`, as a function of the lines of the mapping listing. -/
def read_proc_maps_lines (ls : List (List Char)) : List ProcMapEntry :=
  ls.filterMap parseMapLine

/-! ### `procscan` crate: socket-table parsing -/

inductive ProcNetProto where
  | tcp
  | tcp6
  | udp
  | udp6
deriving DecidableEq

structure ProcNetSocketEntry where
  proto : ProcNetProto
  local_port : Nat
  inode : Nat
  state : Nat
deriving DecidableEq

def parseProcNetLine (proto : ProcNetProto) (line : List Char) :
    Option ProcNetSocketEntry :=
  match split_whitespace line with
  | _sl :: local_address :: _rem :: state_hex :: _t5 :: _t6 :: _t7 :: _t8 :: _t9 ::
      inode_field :: _rest => do
    let ap ← splitOnceColon local_address
    let local_port ← parse_hex_u16 ap.2
    let state ← parse_hex_u8 state_hex
    let inode ← parse_u64_dec inode_field
    some ⟨proto, local_port, inode, state⟩
  | _ => none

/-- `parse_proc_net_file`, as a function of the lines of one socket table:
the first line is the header and is skipped unconditionally. -/
def parse_proc_net_lines (proto : ProcNetProto) : List (List Char) → List ProcNetSocketEntry
  | [] => []
  | _header :: rest => rest.filterMap (parseProcNetLine proto)

/-! ### `procscan` crate: descriptor-directory reading -/

/-- One entry of a process's descriptor directory: the entry name, and the
result of resolving its symbolic link (`none` models a failed
`read_link`). -/
structure FdDirEntry where
  name : String
  link : Option String
deriving DecidableEq

/-- `read_fd_links` / loop body of `read_fd_links_access`, as a function of
the descriptor-directory entries.  The raw descriptor path is modelled by
the entry name.  A failed link resolution is retained with an empty link
target; the list is sorted by fd. -/
def read_fd_links (entries : List FdDirEntry) : List (Int × String × String) :=
  List.insertionSort (fun a b => a.1 ≤ b.1)
    (entries.filterMap (fun e =>
      (parse_i32 e.name.toList).map (fun fd => (fd, e.name, e.link.getD ""))))

def dropPatChars : List Char → List Char → Option (List Char)
  | [], s => some s
  | _ :: _, [] => none
  | p :: ps, c :: cs => if c = p then dropPatChars ps cs else none

def dropSufChar (ch : Char) (s : List Char) : Option (List Char) :=
  match s.reverse with
  | [] => none
  | c :: rest => if c = ch then some rest.reverse else none

/-- `parse_socket_inode`: recognise a link target of the literal form
`socket:[<inode>]`. -/
def parse_socket_inode (link : List Char) : Option Nat := do
  let rest ← dropPatChars "socket:[".toList link
  let rest2 ← dropSufChar ']' rest
  parse_u64_dec rest2

/-! ### `procscan` crate: access classification and the per-pid environment -/

inductive ProcAccess (α : Type) where
  | ok (v : α)
  | permissionDenied
  | gone
  | fatal (e : String)

/-- The state the process-information pseudo-filesystem exposes for one
pid during a correlation pass: the descriptor directory (with the access
classification of its `read_dir`), the filesystem-metadata lookup used to
stat descriptor paths, the lines of the memory-map listing (with its
access classification), and the classified short-command-name read. -/
structure PidEnv where
  fdDir : ProcAccess (List FdDirEntry)
  statId : String → Option FileId
  mapsLines : ProcAccess (List (List Char))
  comm : ProcAccess String

def read_fd_links_access (e : PidEnv) : ProcAccess (List (Int × String × String)) :=
  match e.fdDir with
  | .ok entries => .ok (read_fd_links entries)
  | .permissionDenied => .permissionDenied
  | .gone => .gone
  | .fatal err => .fatal err

def read_proc_maps_access (e : PidEnv) : ProcAccess (List ProcMapEntry) :=
  match e.mapsLines with
  | .ok ls => .ok (read_proc_maps_lines ls)
  | .permissionDenied => .permissionDenied
  | .gone => .gone
  | .fatal err => .fatal err

/-- `read_comm_best_effort` (shared inline pattern of both tools): any
non-`Ok` outcome of the command-name read degrades to `"<unknown>"`. -/
def read_comm_best_effort (e : PidEnv) : String :=
  match e.comm with
  | .ok s => s
  | .permissionDenied => "<unknown>"
  | .gone => "<unknown>"
  | .fatal _ => "<unknown>"

/-! ### Per-pid scans shared by `whoholds` and `whyopen` -/

def scan_pid_open_fd_file (target : FileId) (e : PidEnv) : ProcAccess Bool :=
  match read_fd_links_access e with
  | .ok links => .ok (links.any (fun l => decide (e.statId l.2.1 = some target)))
  | .permissionDenied => .permissionDenied
  | .gone => .gone
  | .fatal err => .fatal err

def scan_pid_mmap_file (target_major target_minor target_inode : Nat) (e : PidEnv) :
    ProcAccess Bool :=
  match read_proc_maps_access e with
  | .ok maps =>
    .ok (maps.any (fun m =>
      decide (m.inode ≠ 0 ∧ m.inode = target_inode ∧
        m.dev_major = target_major ∧ m.dev_minor = target_minor)))
  | .permissionDenied => .permissionDenied
  | .gone => .gone
  | .fatal err => .fatal err

def scan_pid_open_fd_socket (inodes : List Nat) (e : PidEnv) : ProcAccess Bool :=
  match read_fd_links_access e with
  | .ok links =>
    .ok (links.any (fun l =>
      match parse_socket_inode l.2.2.toList with
      | some inode => decide (inode ∈ inodes)
      | none => false))
  | .permissionDenied => .permissionDenied
  | .gone => .gone
  | .fatal err => .fatal err

/-! ### `whoholds`: holder map and skip accounting -/

inductive Reason where
  | openFd
  | mmap
deriving DecidableEq

/-- Ordered-map insert keyed by pid (model of `BTreeMap::insert`). -/
def btInsert {V : Type} (k : Int) (v : V) : List (Int × V) → List (Int × V)
  | [] => [(k, v)]
  | (k2, v2) :: rest =>
    if k < k2 then (k, v) :: (k2, v2) :: rest
    else if k = k2 then (k, v) :: rest
    else (k2, v2) :: btInsert k v rest

/-- Set insert (model of `HashSet::insert`); only membership and
cardinality are ever consumed. -/
def hsInsert (k : Int) (s : List Int) : List Int :=
  if k ∈ s then s else s ++ [k]

structure HolderState where
  holders : List (Int × Reason × String)
  skipped : List Int
deriving DecidableEq

def whoholds_path_step (target : FileId) (tmaj tmin : Nat) (st : HolderState)
    (pid : Int) (e : PidEnv) : Except String HolderState :=
  match scan_pid_open_fd_file target e with
  | .ok true =>
    .ok { st with holders := btInsert pid (Reason.openFd, read_comm_best_effort e) st.holders }
  | .gone => .ok st
  | .fatal err => .error err
  | .ok false =>
    match scan_pid_mmap_file tmaj tmin target.inode e with
    | .ok true =>
      .ok { st with holders := btInsert pid (Reason.mmap, read_comm_best_effort e) st.holders }
    | .ok false => .ok st
    | .permissionDenied => .ok st
    | .gone => .ok st
    | .fatal err => .error err
  | .permissionDenied =>
    match scan_pid_mmap_file tmaj tmin target.inode e with
    | .ok true =>
      .ok { st with holders := btInsert pid (Reason.mmap, read_comm_best_effort e) st.holders }
    | .ok false => .ok st
    | .permissionDenied => .ok { st with skipped := hsInsert pid st.skipped }
    | .gone => .ok st
    | .fatal err => .error err

def whoholds_path_pass (target : FileId) (tmaj tmin : Nat) :
    List (Int × PidEnv) → HolderState → Except String HolderState
  | [], st => .ok st
  | (pid, e) :: rest, st =>
    match whoholds_path_step target tmaj tmin st pid e with
    | .ok st2 => whoholds_path_pass target tmaj tmin rest st2
    | .error err => .error err

/-- `whoholds_path`, as a function of the target identity and the per-pid
environments of the pids enumerated at the start of the pass. -/
def whoholds_path_core (target : FileId) (env : List (Int × PidEnv)) :
    Except String HolderState :=
  whoholds_path_pass target (dev_major_minor target.dev).1 (dev_major_minor target.dev).2
    env ⟨[], []⟩

def whoholds_port_step (inodes : List Nat) (st : HolderState)
    (pid : Int) (e : PidEnv) : Except String HolderState :=
  match scan_pid_open_fd_socket inodes e with
  | .ok true =>
    .ok { st with holders := btInsert pid (Reason.openFd, read_comm_best_effort e) st.holders }
  | .ok false => .ok st
  | .permissionDenied => .ok { st with skipped := hsInsert pid st.skipped }
  | .gone => .ok st
  | .fatal err => .error err

def whoholds_port_pass (inodes : List Nat) :
    List (Int × PidEnv) → HolderState → Except String HolderState
  | [], st => .ok st
  | (pid, e) :: rest, st =>
    match whoholds_port_step inodes st pid e with
    | .ok st2 => whoholds_port_pass inodes rest st2
    | .error err => .error err

/-- `whoholds_port`: collect the socket inodes bound to the target port;
if none, answer immediately with no holders and no skip count, without
scanning any pid. -/
def whoholds_port_core (port : Nat) (sockets : List ProcNetSocketEntry)
    (env : List (Int × PidEnv)) : Except String HolderState :=
  let targetInodes :=
    (sockets.filter (fun s => decide (s.local_port = port))).map (fun s => s.inode)
  if targetInodes = [] then .ok ⟨[], []⟩
  else whoholds_port_pass targetInodes env ⟨[], []⟩

/-! ### `whyopen`: reason lists per pid -/

structure ProcResult where
  pid : Int
  command : String
  reasons : List String
deriving DecidableEq

structure WhyState where
  results : List (Int × ProcResult)
  skipped : List Int
deriving DecidableEq

/-- Model of `Vec::dedup`: drop consecutive duplicates. -/
def dedupConsec {α : Type} [DecidableEq α] : List α → List α
  | [] => []
  | [a] => [a]
  | a :: b :: rest =>
    if a = b then dedupConsec (b :: rest) else a :: dedupConsec (b :: rest)

/-- Tail of the `whyopen_path` per-pid iteration: count the pid as skipped
when no reason was recorded and at least one check was denied; otherwise
sort and dedup the reasons and record the result. -/
def whyopen_finish (st : WhyState) (pid : Int)
    (reasons : List String) (commOpt : Option String) (anyDenied : Bool) : WhyState :=
  match reasons with
  | [] => if anyDenied then { st with skipped := hsInsert pid st.skipped } else st
  | _ =>
    let rs := dedupConsec (List.insertionSort (· ≤ ·) reasons)
    { st with results := btInsert pid ⟨pid, commOpt.getD "<unknown>", rs⟩ st.results }

def whyopen_path_step (target : FileId) (tmaj tmin : Nat) (st : WhyState)
    (pid : Int) (e : PidEnv) : Except String WhyState :=
  match scan_pid_open_fd_file target e with
  | .gone => .ok st
  | .fatal err => .error err
  | .ok true =>
    match scan_pid_mmap_file tmaj tmin target.inode e with
    | .gone => .ok st
    | .fatal err => .error err
    | .ok true =>
      .ok (whyopen_finish st pid ["open fd", "memory mapped"]
        (some (read_comm_best_effort e)) false)
    | .ok false =>
      .ok (whyopen_finish st pid ["open fd"] (some (read_comm_best_effort e)) false)
    | .permissionDenied =>
      .ok (whyopen_finish st pid ["open fd"] (some (read_comm_best_effort e)) true)
  | .ok false =>
    match scan_pid_mmap_file tmaj tmin target.inode e with
    | .gone => .ok st
    | .fatal err => .error err
    | .ok true =>
      .ok (whyopen_finish st pid ["memory mapped"] (some (read_comm_best_effort e)) false)
    | .ok false => .ok (whyopen_finish st pid [] none false)
    | .permissionDenied => .ok (whyopen_finish st pid [] none true)
  | .permissionDenied =>
    match scan_pid_mmap_file tmaj tmin target.inode e with
    | .gone => .ok st
    | .fatal err => .error err
    | .ok true =>
      .ok (whyopen_finish st pid ["memory mapped"] (some (read_comm_best_effort e)) true)
    | .ok false => .ok (whyopen_finish st pid [] none true)
    | .permissionDenied => .ok (whyopen_finish st pid [] none true)

def whyopen_path_pass (target : FileId) (tmaj tmin : Nat) :
    List (Int × PidEnv) → WhyState → Except String WhyState
  | [], st => .ok st
  | (pid, e) :: rest, st =>
    match whyopen_path_step target tmaj tmin st pid e with
    | .ok st2 => whyopen_path_pass target tmaj tmin rest st2
    | .error err => .error err

/-- `whyopen_path`, as a function of the target identity and the per-pid
environments of the pids enumerated at the start of the pass. -/
def whyopen_path_core (target : FileId) (env : List (Int × PidEnv)) :
    Except String WhyState :=
  whyopen_path_pass target (dev_major_minor target.dev).1 (dev_major_minor target.dev).2
    env ⟨[], []⟩

/-! ### `whyopen` port mode -/

def proto_label : ProcNetProto → String
  | .tcp => "tcp"
  | .tcp6 => "tcp"
  | .udp => "udp"
  | .udp6 => "udp"

def hexDigitUpper (n : Nat) : Char :=
  if n < 10 then Char.ofNat ('0'.toNat + n) else Char.ofNat ('A'.toNat + n - 10)

/-- Model of `format!("0x\x7bstate:02X\x7d")` for a byte-sized state. -/
def hexStateText (state : Nat) : String :=
  "0x" ++ String.mk [hexDigitUpper ((state / 16) % 16), hexDigitUpper (state % 16)]

def socket_state_label (proto : ProcNetProto) (state : Nat) : String :=
  match proto with
  | .tcp | .tcp6 =>
    if state = 1 then "established"
    else if state = 10 then "listening"
    else hexStateText state
  | .udp | .udp6 =>
    if state = 7 then "listening" else hexStateText state

def labelsInsert (inode : Nat) (label : String) :
    List (Nat × List String) → List (Nat × List String)
  | [] => [(inode, [label])]
  | (k, ls) :: rest =>
    if k = inode then (k, ls ++ [label]) :: rest
    else (k, ls) :: labelsInsert inode label rest

def lookupLabels (inode : Nat) : List (Nat × List String) → Option (List String)
  | [] => none
  | (k, ls) :: rest => if k = inode then some ls else lookupLabels inode rest

def whyopen_port_step (m : List (Nat × List String)) (st : WhyState)
    (pid : Int) (e : PidEnv) : Except String WhyState :=
  match read_fd_links_access e with
  | .permissionDenied => .ok { st with skipped := hsInsert pid st.skipped }
  | .gone => .ok st
  | .fatal err => .error err
  | .ok links =>
    let targets := m.map (fun p => p.1)
    let acc := links.foldl
      (fun (acc : List String × Option String) l =>
        match parse_socket_inode l.2.2.toList with
        | none => acc
        | some inode =>
          if inode ∈ targets then
            let cm := match acc.2 with
              | some c => some c
              | none => some (read_comm_best_effort e)
            match lookupLabels inode m with
            | some ls => (acc.1 ++ ls, cm)
            | none => (acc.1 ++ ["socket"], cm)
          else acc)
      ([], none)
    match acc.1 with
    | [] => .ok st
    | rs0 =>
      let rs := dedupConsec (List.insertionSort (· ≤ ·) rs0)
      .ok { st with results := btInsert pid ⟨pid, acc.2.getD "<unknown>", rs⟩ st.results }

def whyopen_port_pass (m : List (Nat × List String)) :
    List (Int × PidEnv) → WhyState → Except String WhyState
  | [], st => .ok st
  | (pid, e) :: rest, st =>
    match whyopen_port_step m st pid e with
    | .ok st2 => whyopen_port_pass m rest st2
    | .error err => .error err

/-- `whyopen_port`: label every socket bound to the target port; if none,
answer immediately with no results and a zero skip count, without scanning
any pid. -/
def whyopen_port_core (port : Nat) (sockets : List ProcNetSocketEntry)
    (env : List (Int × PidEnv)) : Except String WhyState :=
  let inodeToLabels := sockets.foldl
    (fun m s =>
      if s.local_port = port then
        labelsInsert s.inode
          ("socket " ++ proto_label s.proto ++ " " ++ socket_state_label s.proto s.state) m
      else m)
    []
  if inodeToLabels.map (fun p => p.1) = [] then .ok ⟨[], []⟩
  else whyopen_port_pass inodeToLabels env ⟨[], []⟩

/-! ### Target classification at the tools' public interface -/

inductive TargetKind where
  | port (p : Nat)
  | path (t : String)
deriving DecidableEq

/-- The shared dispatch of `run` in `whoholds` and `whyopen`: a target
that parses as a `u16` is a port query; only a failed parse falls through
to path resolution. -/
def classify_target (t : String) : TargetKind :=
  match parse_u16_dec t.toList with
  | some p => .port p
  | none => .path t

/-! ### Projections used by the theorems -/

def skippedOf (r : Except String HolderState) : List Int :=
  match r with
  | .ok st => st.skipped
  | .error _ => []

def whySkippedOf (r : Except String WhyState) : List Int :=
  match r with
  | .ok st => st.skipped
  | .error _ => []

/-! ### Concrete inputs used by witnesses and counterexamples -/

/-- The well-formed socket-table data line of the claim: state byte `0A`,
local address `0100007F:0035`, inode (10th token) `46743`. -/
def c4Line : String :=
  "   0: 0100007F:0035 00000000:0000 0A 00000000:00000000 00:00000000 00000000  1000        0 46743 2 0000000000000000 100 0 0 10 0"

/-- A pid whose descriptor-directory read is permission-denied while its
memory-map read succeeds (and matches nothing). -/
def c1Env : PidEnv :=
  ⟨ProcAccess.permissionDenied, fun _ => none, ProcAccess.ok [], ProcAccess.ok "c"⟩

/-- A pid holding the target `⟨1, 2⟩` through descriptor `3`, with its
memory-map read denied. -/
def c9Env : PidEnv :=
  ⟨ProcAccess.ok [⟨"3", some "/tmp/f"⟩], fun _ => some ⟨1, 2⟩,
   ProcAccess.permissionDenied, ProcAccess.ok "cmd"⟩

/-- A well-formed memory-map line used by the malformed-line witness. -/
def c7Good1 : String := "7f3a0000-7f3b0000 r-xp 00000000 08:01 1234 /usr/lib/x.so"

/-- Another well-formed memory-map line used by the malformed-line witness. -/
def c7Good2 : String := "7f3c0000-7f3d0000 rw-p 00000000 08:01 77"

instance : IsTotal (Int × String × String) (fun a b => a.1 ≤ b.1) :=
  ⟨fun a b => Int.le_total a.1 b.1⟩

instance : IsTrans (Int × String × String) (fun a b => a.1 ≤ b.1) :=
  ⟨fun _ _ _ h h2 => le_trans h h2⟩

/-! ### Helper lemmas -/

lemma mask_shift_testBit (w lo i : Nat) :
    Nat.testBit ((2 ^ w - 1) <<< lo) i = (decide (lo ≤ i) && decide (i < lo + w)) := by
  rw [Nat.testBit_shiftLeft, Nat.testBit_two_pow_sub_one]
  by_cases h : lo ≤ i
  · rw [decide_eq_true (show i ≥ lo from h)]
    simp only [Bool.true_and]
    rw [decide_eq_decide]
    omega
  · rw [decide_eq_false (show ¬ i ≥ lo from h)]
    simp

lemma major_testBit_eq (dev j : Nat) :
    ((dev_major_minor dev).1).testBit j =
      ((decide (j < 12) && dev.testBit (8 + j)) ||
       (decide (12 ≤ j) && decide (j < 32) && dev.testBit (32 + j))) := by
  have e1 : (0xfff00 : Nat) = (2 ^ 12 - 1) <<< 8 := by decide
  have e2 : (0xfffff00000000000 : Nat) = (2 ^ 20 - 1) <<< 44 := by decide
  have e3 : (4294967296 : Nat) = 2 ^ 32 := by decide
  show Nat.testBit ((((dev &&& 0xfff00) >>> 8) |||
      ((dev &&& 0xfffff00000000000) >>> 32)) % 4294967296) j = _
  rw [e1, e2, e3, Nat.testBit_mod_two_pow, Nat.testBit_or, Nat.testBit_shiftRight,
    Nat.testBit_shiftRight, Nat.testBit_and, Nat.testBit_and, mask_shift_testBit,
    mask_shift_testBit]
  by_cases h1 : j < 12 <;> by_cases h2 : j < 32
  · rw [decide_eq_true (show (8 : Nat) ≤ 8 + j from by omega),
      decide_eq_true (show 8 + j < 8 + 12 from by omega),
      decide_eq_false (show ¬ 44 ≤ 32 + j from by omega),
      decide_eq_true h2, decide_eq_true h1,
      decide_eq_false (show ¬ 12 ≤ j from by omega)]
    simp
  · omega
  · rw [decide_eq_true (show (8 : Nat) ≤ 8 + j from by omega),
      decide_eq_false (show ¬ 8 + j < 8 + 12 from by omega),
      decide_eq_true (show 44 ≤ 32 + j from by omega),
      decide_eq_true (show 32 + j < 44 + 20 from by omega),
      decide_eq_true h2, decide_eq_false h1,
      decide_eq_true (show 12 ≤ j from by omega)]
    simp
  · rw [decide_eq_false h1, decide_eq_false h2,
      decide_eq_false (show ¬ 32 + j < 44 + 20 from by omega)]
    simp

lemma minor_testBit_eq (dev j : Nat) :
    ((dev_major_minor dev).2).testBit j =
      ((decide (j < 8) && dev.testBit j) ||
       (decide (8 ≤ j) && decide (j < 20) && dev.testBit (12 + j))) := by
  have e1 : (0xff : Nat) = 2 ^ 8 - 1 := by decide
  have e2 : (0xfff00000 : Nat) = (2 ^ 12 - 1) <<< 20 := by decide
  have e3 : (4294967296 : Nat) = 2 ^ 32 := by decide
  show Nat.testBit (((dev &&& 0xff) |||
      ((dev &&& 0xfff00000) >>> 12)) % 4294967296) j = _
  rw [e1, e2, e3, Nat.testBit_mod_two_pow, Nat.testBit_or, Nat.testBit_shiftRight,
    Nat.testBit_and, Nat.testBit_and, Nat.testBit_two_pow_sub_one, mask_shift_testBit]
  by_cases h1 : j < 8 <;> by_cases h2 : j < 20
  · rw [decide_eq_true (show j < 32 from by omega), decide_eq_true h1,
      decide_eq_false (show ¬ 20 ≤ 12 + j from by omega),
      decide_eq_false (show ¬ 8 ≤ j from by omega)]
    simp
  · omega
  · rw [decide_eq_true (show j < 32 from by omega), decide_eq_false h1,
      decide_eq_true (show 20 ≤ 12 + j from by omega),
      decide_eq_true (show 12 + j < 20 + 12 from by omega),
      decide_eq_true h2, decide_eq_true (show 8 ≤ j from by omega)]
    simp
  · rw [decide_eq_false h1, decide_eq_false h2,
      decide_eq_false (show ¬ 12 + j < 20 + 12 from by omega)]
    simp

lemma parseDigitsAux_lt_bound {dval : Char → Option Nat} {radix bound : Nat} :
    ∀ (l : List Char) (acc v : Nat), acc < bound →
      parseDigitsAux dval radix bound l acc = some v → v < bound := by
  intro l
  induction l with
  | nil =>
    intro acc v h hv
    simp only [parseDigitsAux, Option.some.injEq] at hv
    omega
  | cons c cs ih =>
    intro acc v h hv
    simp only [parseDigitsAux] at hv
    rcases hd : dval c with _ | d
    · rw [hd] at hv
      simp at hv
    · rw [hd] at hv
      simp only at hv
      split at hv
      · exact ih _ _ (by assumption) hv
      · simp at hv

lemma parse_u16_dec_lt (s : List Char) (v : Nat) :
    parse_u16_dec s = some v → v < 65536 := by
  intro h
  rcases s with _ | ⟨c, cs⟩
  · simp [parse_u16_dec, parseUnsigned] at h
  · simp only [parse_u16_dec, parseUnsigned] at h
    by_cases hc : c = '+'
    · rw [if_pos hc] at h
      by_cases hcs : cs = []
      · rw [if_pos hcs] at h
        simp at h
      · rw [if_neg hcs] at h
        exact parseDigitsAux_lt_bound cs 0 v (by omega) h
    · rw [if_neg hc] at h
      exact parseDigitsAux_lt_bound (c :: cs) 0 v (by omega) h

lemma labelsFold_no_match (port : Nat) :
    ∀ (sockets : List ProcNetSocketEntry) (m : List (Nat × List String)),
      (∀ s ∈ sockets, s.local_port ≠ port) →
      sockets.foldl
        (fun m s =>
          if s.local_port = port then
            labelsInsert s.inode
              ("socket " ++ proto_label s.proto ++ " " ++
                socket_state_label s.proto s.state) m
          else m) m = m := by
  intro sockets
  induction sockets with
  | nil => intro m _; rfl
  | cons s rest ih =>
    intro m h
    have hs : s.local_port ≠ port := h s (List.mem_cons_self s rest)
    rw [List.foldl_cons, if_neg hs]
    exact ih m (fun t ht => h t (List.mem_cons_of_mem s ht))

/-! ### Claim theorems -/

/-- Claim C2, counterexample: the claim describes the major number as taken
from bits 8-11, but at the raw device value `4096` (bit 12 set) the source's
`dev_major_minor` yields major `16` while the bits-8-11 reading yields `0`:
the stated bit range does not reproduce the source (or the kernel packing). -/
theorem claim_C2_counterexample :
    dev_major_minor 4096 = (16, 0) ∧ devMajorMinorClaimed 4096 = (0, 0) ∧
      dev_major_minor 4096 ≠ devMajorMinorClaimed 4096 := by
  refine ⟨by decide, by decide, by decide⟩

/-- Claim C2 (amended): `dev_major_minor` is a pure total function whose
major output takes bits 8-19 (not 8-11) of the input, combined with bits
44-63 shifted down by 32, and whose minor output takes bits 0-7 combined
with bits 20-31 shifted down by 12; on the kernel packing of
(major 8, minor 1), raw value `2049`, it returns exactly `(8, 1)`, and
calling it twice on the same input yields the same pair. -/
theorem claim_C2_amended :
    (∀ dev j : Nat, ((dev_major_minor dev).1).testBit j =
        ((decide (j < 12) && dev.testBit (8 + j)) ||
         (decide (12 ≤ j) && decide (j < 32) && dev.testBit (32 + j)))) ∧
    (∀ dev j : Nat, ((dev_major_minor dev).2).testBit j =
        ((decide (j < 8) && dev.testBit j) ||
         (decide (8 ≤ j) && decide (j < 20) && dev.testBit (12 + j)))) ∧
    (∀ dev : Nat, dev_major_minor dev = dev_major_minor dev) ∧
    dev_major_minor 2049 = (8, 1) := by
  refine ⟨major_testBit_eq, minor_testBit_eq, fun _ => rfl, by decide⟩

/-- Claim C2 witness: the amended theorem evaluated at the kernel packing of
(major 8, minor 1). -/
theorem claim_C2_witness : dev_major_minor 2049 = (8, 1) :=
  claim_C2_amended.2.2.2

/-- Claim C3, counterexample: `list_pids` keeps every entry name that parses
as an `i32`, not only the positive ones: on a directory containing the entry
`"-1"` the source function returns `[-1]` while the claimed
positive-integers-only reading returns `[]`. -/
theorem claim_C3_counterexample :
    list_pids ["-1"] = [-1] ∧ listPidsClaimed ["-1"] = [] ∧
      list_pids ["-1"] ≠ listPidsClaimed ["-1"] := by
  refine ⟨by decide, by decide, by decide⟩

/-- Claim C3 (amended): `list_pids` returns exactly those entry names of the
process-information root directory that parse as signed 32-bit integers
(Rust `i32` parsing, so an optional sign is accepted and out-of-range
numerals are skipped), as a sequence in ascending numeric order, silently
skipping every other entry. -/
theorem claim_C3_amended (entries : List String) :
    List.Sorted (· ≤ ·) (list_pids entries) ∧
    ∀ x : Int, x ∈ list_pids entries ↔ ∃ s ∈ entries, parse_i32 s.toList = some x := by
  constructor
  · exact List.sorted_insertionSort _ _
  · intro x
    unfold list_pids
    rw [(List.perm_insertionSort _ _).mem_iff]
    simp [List.mem_filterMap]

/-- Claim C3 witness: the amended theorem evaluated on a concrete directory
listing. -/
theorem claim_C3_witness :
    List.Sorted (· ≤ ·) (list_pids ["10", "2", "abc"]) :=
  (claim_C3_amended ["10", "2", "abc"]).1

/-- Claim C4: parsing a socket table consisting of a header line (always
skipped) and the single well-formed data line with state byte `0A`, local
address `0100007F:0035` and 10th token `46743` yields exactly one entry
with `local_port = 53`, `inode = 46743` and `state = 0x0A`, for any header
content and any protocol table. -/
theorem claim_C4_theorem (hdr : List Char) (proto : ProcNetProto) :
    parse_proc_net_lines proto [hdr, c4Line.toList] =
      [⟨proto, 53, 46743, 10⟩] := by
  show List.filterMap (parseProcNetLine proto) [c4Line.toList] = _
  cases proto <;> decide

/-- Claim C4 witness: the theorem evaluated at a concrete header and the
TCP table. -/
theorem claim_C4_witness :
    parse_proc_net_lines ProcNetProto.tcp [[], c4Line.toList] =
      [⟨ProcNetProto.tcp, 53, 46743, 10⟩] :=
  claim_C4_theorem [] ProcNetProto.tcp

/-- Claim C5: `format_duration_ago` maps the exact boundary values 5, 60,
119, 120, 3600 and 86400 seconds to "5s ago", "1m ago", "1m ago", "2m ago",
"1h ago" and "1d ago"; in general durations under 60s render as whole
seconds, under 3600s as floor minutes, under 86400s as floor hours and
otherwise floor days, each suffixed " ago". -/
theorem claim_C5_theorem :
    format_duration_ago 5 = "5s ago" ∧
    format_duration_ago 60 = "1m ago" ∧
    format_duration_ago 119 = "1m ago" ∧
    format_duration_ago 120 = "2m ago" ∧
    format_duration_ago 3600 = "1h ago" ∧
    format_duration_ago 86400 = "1d ago" ∧
    (∀ d : Nat, d < 60 → format_duration_ago d = toString d ++ "s ago") ∧
    (∀ d : Nat, 60 ≤ d → d < 3600 →
      format_duration_ago d = toString (d / 60) ++ "m ago") ∧
    (∀ d : Nat, 3600 ≤ d → d < 86400 →
      format_duration_ago d = toString (d / 3600) ++ "h ago") ∧
    (∀ d : Nat, 86400 ≤ d →
      format_duration_ago d = toString (d / 86400) ++ "d ago") := by
  refine ⟨by decide, by decide, by decide, by decide, by decide, by decide,
    ?_, ?_, ?_, ?_⟩
  · intro d h
    unfold format_duration_ago
    rw [if_pos h]
  · intro d h1 h2
    unfold format_duration_ago
    rw [if_neg (by omega), if_pos (show d < 60 * 60 from by omega)]
  · intro d h1 h2
    unfold format_duration_ago
    rw [if_neg (by omega), if_neg (show ¬ d < 60 * 60 from by omega),
      if_pos (show d < 60 * 60 * 24 from by omega)]
  · intro d h1
    unfold format_duration_ago
    rw [if_neg (by omega), if_neg (show ¬ d < 60 * 60 from by omega),
      if_neg (show ¬ d < 60 * 60 * 24 from by omega)]

/-- Claim C5 witness: the general floor-hours clause of the theorem applied
at 7200 seconds. -/
theorem claim_C5_witness : format_duration_ago 7200 = "2h ago" := by
  have h := claim_C5_theorem.2.2.2.2.2.2.2.2.1 7200 (by omega) (by omega)
  simpa using h

/-- Claim C10: every target string that parses as an unsigned 16-bit
integer is dispatched as a port query (never a path), the parsed value is
below 65536, and only targets failing the `u16` parse are resolved as
paths; in particular the bare file name "8080" is classified as a port,
while "65536" and "zen.txt" fall through to path resolution. -/
theorem claim_C10_theorem :
    (∀ (t : String) (p : Nat), parse_u16_dec t.toList = some p →
      classify_target t = TargetKind.port p ∧ p < 65536) ∧
    (∀ t : String, parse_u16_dec t.toList = none →
      classify_target t = TargetKind.path t) ∧
    classify_target "8080" = TargetKind.port 8080 ∧
    classify_target "65536" = TargetKind.path "65536" ∧
    classify_target "zen.txt" = TargetKind.path "zen.txt" := by
  refine ⟨?_, ?_, by decide, by decide, by decide⟩
  · intro t p h
    constructor
    · unfold classify_target
      rw [h]
    · exact parse_u16_dec_lt t.toList p h
  · intro t h
    unfold classify_target
    rw [h]

/-- Claim C10 witness: the theorem's concrete dispatch of the numeric
file name "8080". -/
theorem claim_C10_witness : classify_target "8080" = TargetKind.port 8080 :=
  claim_C10_theorem.2.2.1

/-- Claim C6: in port mode, when no socket-table entry carries the target
local port, both `whoholds_port` and `whyopen_port` return the empty holder
set with a zero skipped count, for every per-pid environment whatsoever —
the result does not depend on the pid environments, so no pid scan is
performed; an unused port is not an error. -/
theorem claim_C6_theorem (port : Nat) (sockets : List ProcNetSocketEntry)
    (env : List (Int × PidEnv)) (h : ∀ s ∈ sockets, s.local_port ≠ port) :
    whoholds_port_core port sockets env = .ok ⟨[], []⟩ ∧
    whyopen_port_core port sockets env = .ok ⟨[], []⟩ := by
  constructor
  · unfold whoholds_port_core
    have hf : (sockets.filter (fun s => decide (s.local_port = port))) = [] := by
      rw [List.filter_eq_nil_iff]
      intro s hs
      simp [h s hs]
    rw [hf]
    rfl
  · unfold whyopen_port_core
    rw [labelsFold_no_match port sockets [] h]
    rfl

/-- Claim C6 witness: the theorem evaluated at port 53 against a socket
table whose only entry is bound to port 80. -/
theorem claim_C6_witness :
    whoholds_port_core 53 [⟨ProcNetProto.tcp, 80, 5, 10⟩] [] = .ok ⟨[], []⟩ ∧
    whyopen_port_core 53 [⟨ProcNetProto.tcp, 80, 5, 10⟩] [] = .ok ⟨[], []⟩ :=
  claim_C6_theorem 53 [⟨ProcNetProto.tcp, 80, 5, 10⟩] [] (by decide)

/-- Claim C7: a malformed line never aborts a read: removing a line on
which the per-line parser fails leaves the parse of the whole memory-map
listing (respectively socket table, whose header line is always skipped)
unchanged, so all remaining lines are still parsed. -/
theorem claim_C7_theorem :
    (∀ (l₁ l₂ : List (List Char)) (m : List Char), parseMapLine m = none →
      read_proc_maps_lines (l₁ ++ m :: l₂) = read_proc_maps_lines (l₁ ++ l₂)) ∧
    (∀ (proto : ProcNetProto) (hdr m : List Char) (l₁ l₂ : List (List Char)),
      parseProcNetLine proto m = none →
      parse_proc_net_lines proto (hdr :: (l₁ ++ m :: l₂)) =
        parse_proc_net_lines proto (hdr :: (l₁ ++ l₂))) := by
  constructor
  · intro l₁ l₂ m hm
    unfold read_proc_maps_lines
    simp [List.filterMap_append, List.filterMap_cons, hm]
  · intro proto hdr m l₁ l₂ hm
    show List.filterMap (parseProcNetLine proto) (l₁ ++ m :: l₂) =
      List.filterMap (parseProcNetLine proto) (l₁ ++ l₂)
    simp [List.filterMap_append, List.filterMap_cons, hm]

/-- Claim C7 witness: the memory-map clause of the theorem applied to a
concrete listing with one garbage line between two well-formed lines. -/
theorem claim_C7_witness :
    read_proc_maps_lines [c7Good1.toList, "garbage".toList, c7Good2.toList] =
      read_proc_maps_lines [c7Good1.toList, c7Good2.toList] :=
  claim_C7_theorem.1 [c7Good1.toList] [c7Good2.toList] "garbage".toList (by decide)

/-- Claim C8: `read_fd_links` returns the descriptor entries ordered by fd
ascending; a directory entry whose name does not parse as an fd number
contributes nothing, and an entry whose link could not be resolved is
retained with an empty link target rather than dropped. -/
theorem claim_C8_theorem :
    (∀ entries : List FdDirEntry,
      List.Sorted (fun a b => a.1 ≤ b.1) (read_fd_links entries)) ∧
    (∀ (e₁ e₂ : List FdDirEntry) (name : String) (link : Option String),
      parse_i32 name.toList = none →
      read_fd_links (e₁ ++ ⟨name, link⟩ :: e₂) = read_fd_links (e₁ ++ e₂)) ∧
    (∀ (e₁ e₂ : List FdDirEntry) (name : String) (fd : Int),
      parse_i32 name.toList = some fd →
      (fd, name, "") ∈ read_fd_links (e₁ ++ ⟨name, none⟩ :: e₂)) := by
  refine ⟨?_, ?_, ?_⟩
  · intro entries
    exact List.sorted_insertionSort _ _
  · intro e₁ e₂ name link hn
    have hn2 : parse_i32 name.data = none := hn
    unfold read_fd_links
    congr 1
    simp [List.filterMap_append, List.filterMap_cons, hn2]
  · intro e₁ e₂ name fd hn
    have hn2 : parse_i32 name.data = some fd := hn
    unfold read_fd_links
    rw [(List.perm_insertionSort _ _).mem_iff]
    rw [List.mem_filterMap]
    exact ⟨⟨name, none⟩, by simp, by simp [hn2]⟩

/-- Claim C8 witness: the theorem's three clauses evaluated on a concrete
descriptor directory: sortedness, skipping of the entry named "zz", and
retention of entry "1" whose link failed to resolve. -/
theorem claim_C8_witness :
    List.Sorted (fun a b => a.1 ≤ b.1)
      (read_fd_links [⟨"5", some "a"⟩, ⟨"zz", some "b"⟩, ⟨"1", none⟩]) ∧
    read_fd_links [⟨"5", some "a"⟩, ⟨"zz", some "b"⟩, ⟨"1", none⟩] =
      read_fd_links [⟨"5", some "a"⟩, ⟨"1", none⟩] ∧
    ((1 : Int), "1", "") ∈ read_fd_links [⟨"5", some "a"⟩, ⟨"1", none⟩] :=
  ⟨claim_C8_theorem.1 [⟨"5", some "a"⟩, ⟨"zz", some "b"⟩, ⟨"1", none⟩],
   claim_C8_theorem.2.1 [⟨"5", some "a"⟩] [⟨"1", none⟩] "zz" (some "b") (by decide),
   claim_C8_theorem.2.2 [⟨"5", some "a"⟩] [] "1" 1 (by decide)⟩

/-- Claim C1, counterexample: in `whyopen` path mode a pid whose
open-descriptor check is permission-denied while its memory-mapping check
succeeds with no match IS counted in `skipped_permission_denied`,
contradicting the claim that only both-denied pids are counted. -/
theorem claim_C1_counterexample :
    scan_pid_open_fd_file ⟨1, 1⟩ c1Env = ProcAccess.permissionDenied ∧
    scan_pid_mmap_file (dev_major_minor 1).1 (dev_major_minor 1).2 1 c1Env =
      ProcAccess.ok false ∧
    whySkippedOf (whyopen_path_core ⟨1, 1⟩ [(7, c1Env)]) = [7] :=
  ⟨rfl, rfl, rfl⟩

/-- Claim C1 (amended): in a single-pid path-mode pass, `whoholds` counts
the pid in `skipped_permission_denied` exactly when both the
open-descriptor check and the memory-mapping check are permission-denied,
but `whyopen` counts it exactly when neither check found a match, neither
check reported the process gone or a fatal error, and at least one check
was permission-denied — so there a descriptor-denied pid whose mapping
check succeeds with no match IS counted. -/
theorem claim_C1_amended (target : FileId) (pid : Int) (e : PidEnv) :
    (pid ∈ skippedOf (whoholds_path_core target [(pid, e)]) ↔
      scan_pid_open_fd_file target e = ProcAccess.permissionDenied ∧
      scan_pid_mmap_file (dev_major_minor target.dev).1 (dev_major_minor target.dev).2
        target.inode e = ProcAccess.permissionDenied) ∧
    (pid ∈ whySkippedOf (whyopen_path_core target [(pid, e)]) ↔
      ((scan_pid_open_fd_file target e = ProcAccess.permissionDenied ∨
        scan_pid_open_fd_file target e = ProcAccess.ok false) ∧
       (scan_pid_mmap_file (dev_major_minor target.dev).1 (dev_major_minor target.dev).2
          target.inode e = ProcAccess.permissionDenied ∨
        scan_pid_mmap_file (dev_major_minor target.dev).1 (dev_major_minor target.dev).2
          target.inode e = ProcAccess.ok false) ∧
       (scan_pid_open_fd_file target e = ProcAccess.permissionDenied ∨
        scan_pid_mmap_file (dev_major_minor target.dev).1 (dev_major_minor target.dev).2
          target.inode e = ProcAccess.permissionDenied))) := by
  rcases hF : scan_pid_open_fd_file target e with (_ | _) | _ | _ | e1 <;>
    rcases hM : scan_pid_mmap_file (dev_major_minor target.dev).1
      (dev_major_minor target.dev).2 target.inode e with (_ | _) | _ | _ | e2 <;>
    simp [whoholds_path_core, whoholds_path_pass, whoholds_path_step,
      whyopen_path_core, whyopen_path_pass, whyopen_path_step, whyopen_finish,
      skippedOf, whySkippedOf, hsInsert, hF, hM]

/-- Claim C1 witness: the amended characterisation applied to the concrete
descriptor-denied, mapping-readable-no-match environment. -/
theorem claim_C1_witness :
    (7 : Int) ∈ whySkippedOf (whyopen_path_core ⟨1, 1⟩ [(7, c1Env)]) :=
  (claim_C1_amended ⟨1, 1⟩ 7 c1Env).2.mpr ⟨Or.inl rfl, Or.inr rfl, Or.inl rfl⟩

/-- Claim C9: in `whoholds` path mode a holder record carries exactly one
reason: when a pid matches the target through an open descriptor, the pass
records the single reason `open fd` for it (never `mmap`, never both), and
the result is the same whatever the pid's memory-map view is — the mapping
check is not performed for that pid. -/
theorem claim_C9_theorem (target : FileId) (pid : Int) (e : PidEnv)
    (maps2 : ProcAccess (List (List Char)))
    (h : scan_pid_open_fd_file target e = ProcAccess.ok true) :
    whoholds_path_core target [(pid, e)] =
      .ok ⟨[(pid, Reason.openFd, read_comm_best_effort e)], []⟩ ∧
    whoholds_path_core target [(pid, { e with mapsLines := maps2 })] =
      .ok ⟨[(pid, Reason.openFd, read_comm_best_effort e)], []⟩ := by
  have h2 : scan_pid_open_fd_file target { e with mapsLines := maps2 } =
      ProcAccess.ok true := h
  constructor
  · simp [whoholds_path_core, whoholds_path_pass, whoholds_path_step, h, btInsert]
  · simp [whoholds_path_core, whoholds_path_pass, whoholds_path_step, h2, btInsert,
      read_comm_best_effort]

/-- Claim C9 witness: the theorem applied to a concrete environment holding
the target through descriptor 3 while its memory-map read is denied. -/
theorem claim_C9_witness :
    whoholds_path_core ⟨1, 2⟩ [(5, c9Env)] =
      .ok ⟨[(5, Reason.openFd, "cmd")], []⟩ :=
  (claim_C9_theorem ⟨1, 2⟩ 5 c9Env (ProcAccess.ok []) rfl).1

end Zenlixem
